import Mathlib

/-!
# Verification of the CHIP-8 interpreter core (`src/core.rs`)

Shallow embedding of the machine-state model and the decode/execute engine
of the `Machine` type in `src/core.rs`.  Machine words are modelled as `Nat`
with explicit wrapping (`% 256`, `% 65536`) exactly where the Rust code
truncates (`as u8`, `as u16`).  Fallible paths are modelled with
`Except RtErr`: the `RtErr.panic` constructor models a Rust panic (an
unchecked slice/array index out of bounds, a checked-arithmetic overflow as
in the debug profile the repository's tests run under, or `unimplemented!`),
while `RtErr.fault` models an `Err` value actually returned to the caller
through a `Result` (in `core.rs` only `Machine::start` produces such a
value, the string "PC out of bounds").
-/

/-- Outcome of a fallible operation of the interpreter.  `panic` models a
Rust panic; `fault` models an `Err` value returned through a `Result`. -/
inductive RtErr where
  | panic (msg : String)
  | fault (msg : String)
deriving DecidableEq

/-- Pointwise update of a `Nat`-indexed store (an array cell assignment). -/
def upd (f : Nat → Nat) (a x : Nat) : Nat → Nat :=
  fun b => if b = a then x else f b

/-- The machine state of `Machine` in `src/core.rs`.  The `name` and
`instruction_parser` fields are omitted: they are immutable identity /
decoder-strategy fields that no modelled operation reads or writes.  Arrays
are modelled as total functions from index to byte/word; every access the
Rust code performs goes through an explicitly bounds-checked helper below,
mirroring the panicking index checks of the Rust arrays. -/
structure Machine where
  counter : Nat
  stack_ptr : Nat
  mem : Nat → Nat
  stack : Nat → Nat
  v : Nat → Nat
  i : Nat
  delay_register : Nat
  sound_register : Nat
  skip_increment : Bool

/-- The machine produced by `Machine::new`: everything zero except the
program counter, which starts at 512. -/
def initMachine : Machine :=
  { counter := 512
    stack_ptr := 0
    mem := fun _ => 0
    stack := fun _ => 0
    v := fun _ => 0
    i := 0
    delay_register := 0
    sound_register := 0
    skip_increment := false }

/-- The `Instruction` enum, reconstructed from the variants `core.rs`
constructs and matches on (`instructions.rs` itself is not part of the
sources; every variant shape below is forced by a `match` arm or a test of
`core.rs`).  `Unhandled` stands for any further decoded variant, which the
executor's catch-all arm answers with `unimplemented!`. -/
inductive Instruction where
  | ClearScreen
  | Return
  | SYS
  | Jump (address : Nat)
  | Call (address : Nat)
  | SkipEqualsByte (reg byte : Nat)
  | SkipNotEqualsByte (reg byte : Nat)
  | SkipEqualsRegister (reg1 reg2 : Nat)
  | LoadByte (reg byte : Nat)
  | AddByte (reg byte : Nat)
  | LoadRegister (reg1 reg2 : Nat)
  | Or (reg1 reg2 : Nat)
  | And (reg1 reg2 : Nat)
  | Xor (reg1 reg2 : Nat)
  | AddRegister (reg1 reg2 : Nat)
  | LoadImmediate (address : Nat)
  | Random (register data : Nat)
  | LoadFromDelay (register : Nat)
  | LoadDelay (register : Nat)
  | LoadSound (register : Nat)
  | AddI (register : Nat)
  | LoadIBCD (register : Nat)
  | StoreRegisters (register : Nat)
  | LoadRegisters (register : Nat)
  | Unhandled

/-- Read `self.v[r]`: the register file has 16 cells, any other index is a
panic (`index out of bounds`). -/
def readV (m : Machine) (r : Nat) : Except RtErr Nat :=
  if r < 16 then .ok (m.v r) else .error (.panic "index out of bounds")

/-- Write `self.v[r] = x` with the same bounds check. -/
def writeV (m : Machine) (r x : Nat) : Except RtErr Machine :=
  if r < 16 then .ok { m with v := upd m.v r x }
  else .error (.panic "index out of bounds")

/-- Read `self.mem.mem[a]`: memory has 4096 cells. -/
def readMem (m : Machine) (a : Nat) : Except RtErr Nat :=
  if a < 4096 then .ok (m.mem a) else .error (.panic "index out of bounds")

/-- Write `self.mem.mem[a] = x` with the same bounds check. -/
def writeMem (m : Machine) (a x : Nat) : Except RtErr Machine :=
  if a < 4096 then .ok { m with mem := upd m.mem a x }
  else .error (.panic "index out of bounds")

/-- Read `self.stack[s]`: the stack has 16 cells. -/
def readStack (m : Machine) (s : Nat) : Except RtErr Nat :=
  if s < 16 then .ok (m.stack s) else .error (.panic "index out of bounds")

/-- Write `self.stack[s] = x` with the same bounds check. -/
def writeStack (m : Machine) (s x : Nat) : Except RtErr Machine :=
  if s < 16 then .ok { m with stack := upd m.stack s x }
  else .error (.panic "index out of bounds")

/-- `u8` decrement `x - 1` under checked arithmetic: decrementing 0 panics
(`attempt to subtract with overflow`), as in the debug profile. -/
def decU8 (x : Nat) : Except RtErr Nat :=
  if x = 0 then .error (.panic "attempt to subtract with overflow")
  else .ok (x - 1)

/-- `u8` increment `x + 1` under checked arithmetic: incrementing 255
panics (`attempt to add with overflow`). -/
def incU8 (x : Nat) : Except RtErr Nat :=
  if x + 1 > 255 then .error (.panic "attempt to add with overflow")
  else .ok (x + 1)

/-- `Machine::inc_pc`: `self.counter += 2` on a `u16` under checked
arithmetic. -/
def inc_pc (m : Machine) : Except RtErr Machine :=
  if m.counter + 2 > 65535 then .error (.panic "attempt to add with overflow")
  else .ok { m with counter := m.counter + 2 }

/-- `Machine::add`: sums the operands through a 16-bit intermediate, writes
1 to `v[15]` when that intermediate exceeds 255 and 0 otherwise, and
returns the sum truncated `as u8`.  The returned pair is (machine with the
flag written, truncated sum). -/
def add (m : Machine) (d1 d2 : Nat) : Machine × Nat :=
  ({ m with v := upd m.v 15 (if d1 + d2 > 255 then 1 else 0) },
   (d1 + d2) % 256)

/-- `Machine::add_16`: sums through a 32-bit intermediate, writes 1 to
`v[15]` when it exceeds 65535 and 0 otherwise, and returns the sum
truncated `as u16`. -/
def add_16 (m : Machine) (d1 d2 : Nat) : Machine × Nat :=
  ({ m with v := upd m.v 15 (if d1 + d2 > 65535 then 1 else 0) },
   (d1 + d2) % 65536)

/-- Loop body of the `StoreRegisters` arm: `self.mem.mem[self.i + n] =
self.v[n]`. -/
def storeStep (m : Machine) (n : Nat) : Except RtErr Machine := do
  let x ← readV m n
  writeMem m (m.i + n) x

/-- Loop body of the `LoadRegisters` arm: `self.v[n] =
self.mem.mem[self.i + n]`. -/
def loadStep (m : Machine) (n : Nat) : Except RtErr Machine := do
  let x ← readMem m (m.i + n)
  writeV m n x

/-- Runs `f` on the indices `n, n+1, ..., n+k-1` in order, threading the
machine, stopping at the first panic: the shape of the Rust
`for n in 0..=register` loops. -/
def regLoopAux (f : Machine → Nat → Except RtErr Machine) :
    Nat → Nat → Machine → Except RtErr Machine
  | 0, _, m => .ok m
  | k + 1, n, m => do
      let m' ← f m n
      regLoopAux f k (n + 1) m'

/-- `Machine::execute`, one arm per `match` arm of `core.rs`.  `rnd` models
the byte drawn from `rand::thread_rng` by the `Random` arm (an external
randomness source). -/
def execute (rnd : Nat) (ins : Instruction) (m : Machine) :
    Except RtErr Machine :=
  match ins with
  | .ClearScreen => .ok m
  | .Return => do
      let ret ← readStack m m.stack_ptr
      let sp' ← decU8 m.stack_ptr
      .ok { m with counter := ret, stack_ptr := sp', skip_increment := true }
  | .SYS => .ok m
  | .Jump address => .ok { m with counter := address, skip_increment := true }
  | .Call address => do
      let sp' ← incU8 m.stack_ptr
      let m1 := { m with stack_ptr := sp' }
      let m2 ← writeStack m1 sp' m1.counter
      .ok { m2 with counter := address, skip_increment := true }
  | .SkipEqualsByte reg byte => do
      let x ← readV m reg
      if x = byte then inc_pc m else .ok m
  | .SkipNotEqualsByte reg byte => do
      let x ← readV m reg
      if x ≠ byte then inc_pc m else .ok m
  | .SkipEqualsRegister reg1 reg2 => do
      let x ← readV m reg1
      let y ← readV m reg2
      if x = y then inc_pc m else .ok m
  | .LoadByte reg byte => writeV m reg byte
  | .AddByte reg byte => do
      let x ← readV m reg
      let p := add m x byte
      writeV p.1 reg p.2
  | .LoadRegister reg1 reg2 => do
      let y ← readV m reg2
      writeV m reg1 y
  | .Or reg1 reg2 => do
      let x ← readV m reg1
      let y ← readV m reg2
      writeV m reg1 (Nat.lor x y)
  | .And reg1 reg2 => do
      let x ← readV m reg1
      let y ← readV m reg2
      writeV m reg1 (Nat.land x y)
  | .Xor reg1 reg2 => do
      let x ← readV m reg1
      let y ← readV m reg2
      writeV m reg1 (Nat.xor x y)
  | .AddRegister reg1 reg2 => do
      let x ← readV m reg1
      let y ← readV m reg2
      let p := add m x y
      writeV p.1 reg1 p.2
  | .LoadImmediate address => .ok { m with i := address }
  | .Random register data => writeV m register (Nat.land rnd data)
  | .LoadFromDelay register => writeV m register m.delay_register
  | .LoadDelay register => .ok { m with delay_register := register }
  | .LoadSound register => .ok { m with sound_register := register }
  | .AddI register => do
      let x ← readV m register
      let p := add_16 m m.i x
      .ok { p.1 with i := p.2 }
  | .LoadIBCD register => do
      let m1 ← writeMem m m.i (register / 100)
      let m2 ← writeMem m1 (m1.i + 1) ((register / 10) % 10)
      let m3 ← writeMem m2 (m2.i + 2) (register % 10)
      .ok m3
  | .StoreRegisters register => regLoopAux storeStep (register + 1) 0 m
  | .LoadRegisters register => regLoopAux loadStep (register + 1) 0 m
  | .Unhandled => .error (.panic "not implemented")

/-- `Machine::get_opcode`: first byte shifted left 8 and OR'ed with the
second (big-endian wire format). -/
def getOpcode (hi lo : Nat) : Nat :=
  Nat.lor (Nat.shiftLeft hi 8) lo

/-- The fetch part of one iteration of `Machine::start`: the explicit
bounds check `self.counter > 4095` answers with the `Err` string
"PC out of bounds"; past that check the code slices
`self.mem.mem[pc..=pc+1]`, which itself panics when `pc + 1` is not below
4096 (a slice range past the end of the 4096-byte array). -/
def fetch (m : Machine) : Except RtErr Nat :=
  if m.counter > 4095 then .error (.fault "PC out of bounds")
  else if m.counter + 1 < 4096 then
    .ok (getOpcode (m.mem m.counter) (m.mem (m.counter + 1)))
  else .error (.panic "slice index out of range")

/-- `Machine::_copy_into_mem` on the byte contents of the file: a
3584-byte zero-initialized buffer receives at most the first 3584 input
bytes (`file.read` reads at most the buffer's length and its count is
discarded), and the buffer is then copied over `mem[512..4096]`.  The
`Result` is `Ok` for every readable input; I/O failure of the underlying
byte source is outside the model. -/
def copy_into_mem (m : Machine) (data : List Nat) : Except RtErr Machine :=
  .ok { m with
        mem := fun a =>
          if 512 ≤ a ∧ a < 4096 then (data.take 3584).getD (a - 512) 0
          else m.mem a }

/-- `Machine::reset`: writes the initial value back into `counter`,
`stack_ptr`, `mem`, `stack`, `v`, `i`, `delay_register` and
`sound_register` (and returns `Ok(())`, elided).  Note the source assigns
no value to `skip_increment`. -/
def reset (m : Machine) : Machine :=
  { m with
    counter := 512
    stack_ptr := 0
    mem := fun _ => 0
    stack := fun _ => 0
    v := fun _ => 0
    i := 0
    delay_register := 0
    sound_register := 0 }

/-! ## Reduction helpers -/

/-- Bind on a successful `Except` computation reduces to the continuation. -/
@[simp] theorem okBind {α β : Type} (a : α) (f : α → Except RtErr β) :
    ((Except.ok a : Except RtErr α) >>= f) = f a := rfl

/-- Bind on a failed `Except` computation propagates the error. -/
@[simp] theorem errBind {α β : Type} (e : RtErr) (f : α → Except RtErr β) :
    ((Except.error e : Except RtErr α) >>= f) = .error e := rfl

/-- An in-range register read succeeds with the cell's value. -/
@[simp] theorem readV_lt (m : Machine) (r : Nat) (h : r < 16) :
    readV m r = .ok (m.v r) := by simp [readV, h]

/-- An in-range register write succeeds. -/
@[simp] theorem writeV_lt (m : Machine) (r x : Nat) (h : r < 16) :
    writeV m r x = .ok { m with v := upd m.v r x } := by simp [writeV, h]

/-- An in-range memory read succeeds with the cell's value. -/
@[simp] theorem readMem_lt (m : Machine) (a : Nat) (h : a < 4096) :
    readMem m a = .ok (m.mem a) := by simp [readMem, h]

/-- An out-of-range memory read panics. -/
@[simp] theorem readMem_ge (m : Machine) (a : Nat) (h : 4096 ≤ a) :
    readMem m a = .error (.panic "index out of bounds") := by
  simp [readMem, Nat.not_lt.mpr h]

/-- An in-range memory write succeeds. -/
@[simp] theorem writeMem_lt (m : Machine) (a x : Nat) (h : a < 4096) :
    writeMem m a x = .ok { m with mem := upd m.mem a x } := by
  simp [writeMem, h]

/-- An out-of-range memory write panics. -/
@[simp] theorem writeMem_ge (m : Machine) (a x : Nat) (h : 4096 ≤ a) :
    writeMem m a x = .error (.panic "index out of bounds") := by
  simp [writeMem, Nat.not_lt.mpr h]

/-- An in-range stack read succeeds with the cell's value. -/
@[simp] theorem readStack_lt (m : Machine) (s : Nat) (h : s < 16) :
    readStack m s = .ok (m.stack s) := by simp [readStack, h]

/-- An in-range stack write succeeds. -/
@[simp] theorem writeStack_lt (m : Machine) (s x : Nat) (h : s < 16) :
    writeStack m s x = .ok { m with stack := upd m.stack s x } := by
  simp [writeStack, h]

/-- Decrementing a positive `u8` succeeds. -/
@[simp] theorem decU8_pos (x : Nat) (h : x ≠ 0) : decU8 x = .ok (x - 1) := by
  simp [decU8, h]

/-- Incrementing a `u8` below 255 succeeds. -/
@[simp] theorem incU8_lt (x : Nat) (h : x < 255) : incU8 x = .ok (x + 1) := by
  simp [incU8]
  omega

/-- Updated cell reads back the written value. -/
@[simp] theorem upd_same (f : Nat → Nat) (a x : Nat) : upd f a x a = x := by
  simp [upd]

/-- A cell other than the updated one is unchanged. -/
@[simp] theorem upd_other (f : Nat → Nat) (a x b : Nat) (h : b ≠ a) :
    upd f a x b = f b := by simp [upd, h]

/-! ## C9 — write-delay / write-sound store their operand literally -/

/-- C9: for every operand `x`, `write-delay(x)` yields exactly the input
machine with `delay_register := x`, and `write-sound(x)` yields exactly the
input machine with `sound_register := x`: the operand is stored literally
(never dereferenced through the register file) and no other state field
changes. -/
theorem spec_c9_load_delay_sound_literal (rnd x : Nat) (m : Machine) :
    execute rnd (.LoadDelay x) m = .ok { m with delay_register := x } ∧
    execute rnd (.LoadSound x) m = .ok { m with sound_register := x } :=
  ⟨rfl, rfl⟩

/-! ## C5 — reset restores the initial state, except the suppress flag -/

/-- The machine produced by `execute` on `Jump 0x222` from the initial
state: counter redirected, suppression flag raised. -/
def machineAfterJump : Machine :=
  { initMachine with counter := 0x222, skip_increment := true }

/-- C5 counterexample: the state `machineAfterJump` is reached from the
initial machine by executing a jump, yet `reset` does not restore the
initialized state from it: the suppress-increment flag stays `true` while
the initialized machine has it `false`. -/
theorem spec_c5_counterexample :
    execute 0 (.Jump 0x222) initMachine = .ok machineAfterJump ∧
    (reset machineAfterJump).skip_increment = true ∧
    initMachine.skip_increment = false ∧
    reset machineAfterJump ≠ initMachine :=
  ⟨rfl, rfl, rfl, fun h => by
    have h' := congrArg Machine.skip_increment h
    simp [reset, machineAfterJump, initMachine] at h'⟩

/-- C5 amended: `reset` restores program counter 512, stack pointer 0, and
zeroes memory, stack, registers, address register and both timers, but
leaves the one-shot suppress-increment flag unchanged rather than
restoring it to its initialized value `false`. -/
theorem spec_c5_reset_restores_all_but_skip (m : Machine) :
    reset m = { initMachine with skip_increment := m.skip_increment } :=
  rfl

/-! ## C3 — the fetch bounds check is off by one -/

/-- The machine after `Jump 4095` from the initial state. -/
def machineAtBoundary : Machine :=
  { initMachine with counter := 4095, skip_increment := true }

/-- C3: `jump(4095)` succeeds, but the next fetch at PC = 4095 does NOT
produce the "address out of bounds" fault the claim requires: the source's
guard reads `self.counter > 4095`, so PC = 4095 passes it and the
subsequent slice `self.mem.mem[4095..=4096]` panics instead of returning
the fault.  Only from PC = 4096 upward does the guard produce the fault
the claim describes for every PC > 4094.  (The source's own comment, "we
check for 4095 because we need to read 2 bytes", states the intended
bound; the code implements `> 4095` instead of `> 4094`.) -/
theorem spec_c3_fetch_boundary_bug :
    execute 0 (.Jump 4095) initMachine = .ok machineAtBoundary ∧
    fetch machineAtBoundary = .error (.panic "slice index out of range") ∧
    fetch { initMachine with counter := 4096 } =
      .error (.fault "PC out of bounds") :=
  ⟨rfl, by norm_num [fetch, machineAtBoundary, initMachine],
   by norm_num [fetch, initMachine]⟩

/-! ## Arithmetic instruction execution lemmas -/

/-- Executing `add-byte` with an in-range destination: the flag write of
`Machine::add` lands first, then the truncated sum is stored in the
destination cell. -/
theorem execute_addByte (rnd r b : Nat) (m : Machine) (hr : r < 16) :
    execute rnd (.AddByte r b) m =
      .ok { m with
            v := upd (upd m.v 15 (if m.v r + b > 255 then 1 else 0)) r
                   ((m.v r + b) % 256) } := by
  simp [execute, add, hr]

/-- Executing `add-register` with in-range operands: both source cells are
read before the flag write, then the truncated sum is stored. -/
theorem execute_addRegister (rnd r1 r2 : Nat) (m : Machine) (h1 : r1 < 16)
    (h2 : r2 < 16) :
    execute rnd (.AddRegister r1 r2) m =
      .ok { m with
            v := upd (upd m.v 15 (if m.v r1 + m.v r2 > 255 then 1 else 0)) r1
                   ((m.v r1 + m.v r2) % 256) } := by
  simp [execute, add, h1, h2]

/-- Executing `add-to-address` with an in-range register: the 16-bit
overflow flag lands in `v[15]` and the truncated sum in `I`. -/
theorem execute_addI (rnd r : Nat) (m : Machine) (hr : r < 16) :
    execute rnd (.AddI r) m =
      .ok { m with
            v := upd m.v 15 (if m.i + m.v r > 65535 then 1 else 0)
            i := (m.i + m.v r) % 65536 } := by
  simp [execute, add_16, hr]

/-! ## C1 — 8-bit add: wrapped sum plus carry flag -/

/-- Machine whose flag register holds 250 (reachable by `load-byte`). -/
def mFlag250 : Machine := { initMachine with v := upd initMachine.v 15 250 }

/-- Result of `add-byte 15, 10` on `mFlag250`: the carry written by the
shared helper is immediately overwritten by the wrapped sum. -/
def mFlag250After : Machine :=
  { mFlag250 with v := upd (upd mFlag250.v 15 1) 15 4 }

/-- C1 counterexample: with destination register 15 (an instance of the
claim's "every destination register") and `V[15] = 250`, adding the byte
10 leaves `V[15] = 4`, the wrapped sum — not the carry indicator 1 that
the claim requires `V[15]` to be overwritten with when the intermediate
sum 260 exceeds 255. -/
theorem spec_c1_counterexample :
    execute 0 (.AddByte 15 10) mFlag250 = .ok mFlag250After ∧
    mFlag250After.v 15 = 4 ∧
    mFlag250After.v 15 ≠ (if 250 + 10 > 255 then 1 else 0) :=
  ⟨rfl, by decide, by decide⟩

/-- C1 amended: for every destination register `r` OTHER THAN the flag
register 15, and every addend (immediate byte for `add-byte`, second
register's value for `add-register`), executing the instruction stores the
8-bit wrapped sum into `r` and unconditionally overwrites `V[15]`: with 1
if the intermediate sum exceeds 255 and 0 otherwise.  (When `r = 15` the
wrapped sum overwrites the carry; see the C10 theorem.) -/
theorem spec_c1_add_flag_semantics (rnd r r2 b : Nat) (m : Machine)
    (hr : r < 16) (h15 : r ≠ 15) (hr2 : r2 < 16) :
    (∃ m', execute rnd (.AddByte r b) m = .ok m' ∧
       m'.v r = (m.v r + b) % 256 ∧
       m'.v 15 = (if m.v r + b > 255 then 1 else 0)) ∧
    (∃ m', execute rnd (.AddRegister r r2) m = .ok m' ∧
       m'.v r = (m.v r + m.v r2) % 256 ∧
       m'.v 15 = (if m.v r + m.v r2 > 255 then 1 else 0)) := by
  have h15' : (15 : Nat) ≠ r := fun h => h15 h.symm
  constructor
  · exact ⟨_, execute_addByte rnd r b m hr,
      by simp [upd_same],
      by simp [upd_other _ _ _ _ h15', upd_same]⟩
  · exact ⟨_, execute_addRegister rnd r r2 m hr hr2,
      by simp [upd_same],
      by simp [upd_other _ _ _ _ h15', upd_same]⟩

/-- Machine with `V[0] = 250` and `V[1] = 10`, the spec's worked example. -/
def mC1 : Machine :=
  { initMachine with v := upd (upd initMachine.v 0 250) 1 10 }

/-- C1 witness: the amended theorem applied at register 0 holding 250 and
addend 10 — the spec's `250 + 10` example: result `(260 mod 256) = 4`,
flag 1. -/
theorem spec_c1_witness :
    mC1.v 0 = 250 ∧ mC1.v 1 = 10 ∧ (mC1.v 0 + 10) % 256 = 4 ∧
    (if mC1.v 0 + 10 > 255 then 1 else 0) = 1 ∧
    (0 : Nat) < 16 ∧ (0 : Nat) ≠ 15 ∧ (1 : Nat) < 16 ∧
    ((∃ m', execute 0 (.AddByte 0 10) mC1 = .ok m' ∧
       m'.v 0 = (mC1.v 0 + 10) % 256 ∧
       m'.v 15 = (if mC1.v 0 + 10 > 255 then 1 else 0)) ∧
     (∃ m', execute 0 (.AddRegister 0 1) mC1 = .ok m' ∧
       m'.v 0 = (mC1.v 0 + mC1.v 1) % 256 ∧
       m'.v 15 = (if mC1.v 0 + mC1.v 1 > 255 then 1 else 0))) :=
  ⟨by decide, by decide, by decide, by decide, by decide, by decide, by decide,
   spec_c1_add_flag_semantics 0 0 1 10 mC1 (by decide) (by decide) (by decide)⟩

/-! ## C2 — add-to-address: 16-bit overflow semantics -/

/-- C2: for every register `r`, `add-to-address` sets `I` to
`(I + V[r]) mod 65536` and the flag register to 1 exactly when the
intermediate sum exceeds 65535, 0 otherwise. -/
theorem spec_c2_addI_overflow (rnd r : Nat) (m : Machine) (hr : r < 16) :
    ∃ m', execute rnd (.AddI r) m = .ok m' ∧
      m'.i = (m.i + m.v r) % 65536 ∧
      m'.v 15 = (if m.i + m.v r > 65535 then 1 else 0) :=
  ⟨_, execute_addI rnd r m hr, by simp, by simp [upd_same]⟩

/-- Machine with `I = 65530` and `V[0] = 10`, the spec's worked example. -/
def mC2 : Machine :=
  { initMachine with i := 65530, v := upd initMachine.v 0 10 }

/-- C2 witness: at `I = 65530`, `V[0] = 10` the theorem yields
`I = (65540 mod 65536) = 4` and flag 1. -/
theorem spec_c2_witness :
    (0 : Nat) < 16 ∧ (mC2.i + mC2.v 0) % 65536 = 4 ∧
    (if mC2.i + mC2.v 0 > 65535 then 1 else 0) = 1 ∧
    (∃ m', execute 0 (.AddI 0) mC2 = .ok m' ∧
      m'.i = (mC2.i + mC2.v 0) % 65536 ∧
      m'.v 15 = (if mC2.i + mC2.v 0 > 65535 then 1 else 0)) :=
  ⟨by decide, by decide, by decide, spec_c2_addI_overflow 0 0 mC2 (by decide)⟩

/-! ## C10 — the flag register as destination of an 8-bit add -/

/-- C10: when the destination of `add-byte` / `add-register` is register
15 itself, the final `V[15]` is the 8-bit wrapped sum (the carry written
by the shared `add` helper is immediately overwritten by the result
store); for every other destination the carry indicator persists. -/
theorem spec_c10_flag_destination (rnd b r r2 : Nat) (m : Machine)
    (hr : r < 16) (hr2 : r2 < 16) :
    (∃ m', execute rnd (.AddByte 15 b) m = .ok m' ∧
       m'.v 15 = (m.v 15 + b) % 256) ∧
    (∃ m', execute rnd (.AddRegister 15 r2) m = .ok m' ∧
       m'.v 15 = (m.v 15 + m.v r2) % 256) ∧
    (r ≠ 15 →
      ∃ m', execute rnd (.AddByte r b) m = .ok m' ∧
        m'.v 15 = (if m.v r + b > 255 then 1 else 0)) ∧
    (r ≠ 15 →
      ∃ m', execute rnd (.AddRegister r r2) m = .ok m' ∧
        m'.v 15 = (if m.v r + m.v r2 > 255 then 1 else 0)) := by
  refine ⟨⟨_, execute_addByte rnd 15 b m (by omega), by simp [upd_same]⟩,
    ⟨_, execute_addRegister rnd 15 r2 m (by omega) hr2, by simp [upd_same]⟩,
    fun h15 => ?_, fun h15 => ?_⟩
  · have h15' : (15 : Nat) ≠ r := fun h => h15 h.symm
    exact ⟨_, execute_addByte rnd r b m hr,
      by simp [upd_other _ _ _ _ h15', upd_same]⟩
  · have h15' : (15 : Nat) ≠ r := fun h => h15 h.symm
    exact ⟨_, execute_addRegister rnd r r2 m hr hr2,
      by simp [upd_other _ _ _ _ h15', upd_same]⟩

/-- C10 witness: on `mFlag250` (flag register holding 250), `add-byte 15,
10` ends with `V[15] = (250 + 10) mod 256 = 4`, which differs from the
carry indicator 1 — the sum, not the carry, is what persists. -/
theorem spec_c10_witness :
    (0 : Nat) < 16 ∧ (1 : Nat) < 16 ∧ (mFlag250.v 15 + 10) % 256 = 4 ∧
    ((∃ m', execute 0 (.AddByte 15 10) mFlag250 = .ok m' ∧
       m'.v 15 = (mFlag250.v 15 + 10) % 256) ∧
     (∃ m', execute 0 (.AddRegister 15 1) mFlag250 = .ok m' ∧
       m'.v 15 = (mFlag250.v 15 + mFlag250.v 1) % 256) ∧
     ((0 : Nat) ≠ 15 →
       ∃ m', execute 0 (.AddByte 0 10) mFlag250 = .ok m' ∧
         m'.v 15 = (if mFlag250.v 0 + 10 > 255 then 1 else 0)) ∧
     ((0 : Nat) ≠ 15 →
       ∃ m', execute 0 (.AddRegister 0 1) mFlag250 = .ok m' ∧
         m'.v 15 = (if mFlag250.v 0 + mFlag250.v 1 > 255 then 1 else 0))) :=
  ⟨by decide, by decide, by decide,
   spec_c10_flag_destination 0 10 0 1 mFlag250 (by decide) (by decide)⟩

/-! ## Call / Return execution lemmas -/

/-- Executing `call` when the stack pointer is below 15: the pointer is
incremented, the pre-jump counter stored at the new top, the counter
redirected, and the next automatic increment suppressed. -/
theorem execute_call (rnd a : Nat) (m : Machine) (h : m.stack_ptr < 15) :
    execute rnd (.Call a) m =
      .ok { m with
            stack_ptr := m.stack_ptr + 1
            stack := upd m.stack (m.stack_ptr + 1) m.counter
            counter := a
            skip_increment := true } := by
  have hA : ¬(m.stack_ptr + 1 > 255) := by omega
  have hB : m.stack_ptr + 1 < 16 := by omega
  simp [execute, incU8, writeStack, hA, hB]

/-- Executing `return` with a nonzero, in-range stack pointer: the counter
is popped from the top of the stack, the pointer decremented, and the next
automatic increment suppressed. -/
theorem execute_return (rnd : Nat) (m : Machine) (h0 : m.stack_ptr ≠ 0)
    (h16 : m.stack_ptr < 16) :
    execute rnd .Return m =
      .ok { m with
            counter := m.stack m.stack_ptr
            stack_ptr := m.stack_ptr - 1
            skip_increment := true } := by
  simp [execute, readStack, decU8, h16, h0]

/-! ## C8 — call then return restores counter and stack pointer -/

/-- C8: for every pre-jump counter, target address and stack pointer below
15, `call(a)` increments the stack pointer, stores the pre-jump counter at
the new top of stack, sets the counter to `a` and suppresses the next
automatic increment; the subsequent `return` restores the pre-call counter
and stack pointer (and also suppresses its increment). -/
theorem spec_c8_call_return_roundtrip (rnd a : Nat) (m : Machine)
    (h : m.stack_ptr < 15) :
    ∃ m1 m2, execute rnd (.Call a) m = .ok m1 ∧
      m1.stack_ptr = m.stack_ptr + 1 ∧
      m1.stack (m.stack_ptr + 1) = m.counter ∧
      m1.counter = a ∧
      m1.skip_increment = true ∧
      execute rnd .Return m1 = .ok m2 ∧
      m2.counter = m.counter ∧
      m2.stack_ptr = m.stack_ptr := by
  refine ⟨_, _, execute_call rnd a m h, rfl, by simp [upd_same], rfl, rfl,
    execute_return rnd _ (by simp) (by simp; omega), ?_, ?_⟩
  · simp [upd_same]
  · simp

/-- Machine with the counter at 25, the spec's worked example. -/
def mC8 : Machine := { initMachine with counter := 25 }

/-- C8 witness: calling from PC 25 to 0x0222 leaves `stack[1] = 25`, stack
pointer 1 and PC 0x0222; the following return restores PC 25 and stack
pointer 0. -/
theorem spec_c8_witness :
    mC8.counter = 25 ∧ mC8.stack_ptr = 0 ∧ mC8.stack_ptr < 15 ∧
    (∃ m1 m2, execute 0 (.Call 0x0222) mC8 = .ok m1 ∧
      m1.stack_ptr = mC8.stack_ptr + 1 ∧
      m1.stack (mC8.stack_ptr + 1) = mC8.counter ∧
      m1.counter = 0x0222 ∧
      m1.skip_increment = true ∧
      execute 0 .Return m1 = .ok m2 ∧
      m2.counter = mC8.counter ∧
      m2.stack_ptr = mC8.stack_ptr) :=
  ⟨by decide, by decide, by decide,
   spec_c8_call_return_roundtrip 0 0x0222 mC8 (by decide)⟩

/-! ## C6 — stack discipline: the pointer operations are unchecked -/

/-- Recognizer for an outcome that is an `Err` value of the `fault` kind —
an error actually reported to a caller through a `Result`, as the claim's
"stack fault" would have to be. -/
def isFault : Except RtErr Machine → Bool
  | .error (.fault _) => true
  | _ => false

/-- Machine whose stack pointer sits at the top bound 15. -/
def mStackTop : Machine := { initMachine with stack_ptr := 15 }

/-- C6 counterexample: executing `call` with the stack pointer at 15 does
not produce a stack-fault result reported to the caller — the source
increments the pointer to 16 unchecked and then writes `stack[16]`, an
out-of-bounds index of the 16-entry stack array, i.e. a panic. -/
theorem spec_c6_counterexample :
    execute 0 (.Call 0x0222) mStackTop =
      .error (.panic "index out of bounds") ∧
    isFault (execute 0 (.Call 0x0222) mStackTop) = false :=
  ⟨rfl, rfl⟩

/-- C6 amended: the pointer moves are unchecked rather than guarded stack
faults: `return` with stack pointer 0 reads `stack[0]` and then panics on
the checked `u8` decrement (`attempt to subtract with overflow`, the
behavior of the debug profile the repository's tests run under), and
`call` with stack pointer 15 panics writing the out-of-range index 16 of
the 16-entry stack; neither path yields an error value reported to the
caller. -/
theorem spec_c6_unchecked_stack (rnd a : Nat) (m1 m2 : Machine)
    (h1 : m1.stack_ptr = 0) (h2 : m2.stack_ptr = 15) :
    execute rnd .Return m1 =
      .error (.panic "attempt to subtract with overflow") ∧
    isFault (execute rnd .Return m1) = false ∧
    execute rnd (.Call a) m2 = .error (.panic "index out of bounds") ∧
    isFault (execute rnd (.Call a) m2) = false := by
  have hr : execute rnd .Return m1 =
      .error (.panic "attempt to subtract with overflow") := by
    simp [execute, readStack, decU8, h1]
  have hc : execute rnd (.Call a) m2 =
      .error (.panic "index out of bounds") := by
    simp [execute, incU8, writeStack, h2]
  exact ⟨hr, by simp [hr, isFault], hc, by simp [hc, isFault]⟩

/-- C6 witness: the amended theorem at the initial machine (stack pointer
0) and at `mStackTop` (stack pointer 15). -/
theorem spec_c6_witness :
    initMachine.stack_ptr = 0 ∧ mStackTop.stack_ptr = 15 ∧
    (execute 0 .Return initMachine =
       .error (.panic "attempt to subtract with overflow") ∧
     isFault (execute 0 .Return initMachine) = false ∧
     execute 0 (.Call 0x0333) mStackTop =
       .error (.panic "index out of bounds") ∧
     isFault (execute 0 (.Call 0x0333) mStackTop) = false) :=
  ⟨by decide, by decide,
   spec_c6_unchecked_stack 0 0x0333 initMachine mStackTop (by decide)
     (by decide)⟩

/-! ## C7 — indirect memory accesses are unchecked -/

/-- If every register index of the remaining loop is in range but the last
memory address `i + n + j` is past 4095, the `store-registers` loop ends in
an index-out-of-bounds panic. -/
theorem storeLoop_panics (j : Nat) : ∀ (n : Nat) (m : Machine),
    n + j ≤ 15 → 4095 < m.i + n + j →
    regLoopAux storeStep (j + 1) n m =
      .error (.panic "index out of bounds") := by
  induction j with
  | zero =>
    intro n m hn hi
    have h1 : n < 16 := by omega
    have h2 : ¬(m.i + n < 4096) := by omega
    simp [regLoopAux, storeStep, readV, h1, writeMem, h2]
  | succ j ih =>
    intro n m hn hi
    have h1 : n < 16 := by omega
    rw [show regLoopAux storeStep (j + 1 + 1) n m =
          (do
            let m' ← storeStep m n
            regLoopAux storeStep (j + 1) (n + 1) m') from rfl]
    by_cases hc : m.i + n < 4096
    · have hstep : storeStep m n =
          .ok { m with mem := upd m.mem (m.i + n) (m.v n) } := by
        simp [storeStep, readV, h1, writeMem, hc]
      rw [hstep]
      simp only [okBind]
      exact ih (n + 1) _ (by omega)
        (show 4095 < m.i + (n + 1) + j by omega)
    · simp [storeStep, readV, h1, writeMem, hc]

/-- Same statement for the `load-registers` loop: the out-of-range memory
read panics. -/
theorem loadLoop_panics (j : Nat) : ∀ (n : Nat) (m : Machine),
    n + j ≤ 15 → 4095 < m.i + n + j →
    regLoopAux loadStep (j + 1) n m =
      .error (.panic "index out of bounds") := by
  induction j with
  | zero =>
    intro n m hn hi
    have h2 : ¬(m.i + n < 4096) := by omega
    simp [regLoopAux, loadStep, readMem, h2]
  | succ j ih =>
    intro n m hn hi
    have h1 : n < 16 := by omega
    rw [show regLoopAux loadStep (j + 1 + 1) n m =
          (do
            let m' ← loadStep m n
            regLoopAux loadStep (j + 1) (n + 1) m') from rfl]
    by_cases hc : m.i + n < 4096
    · have hstep : loadStep m n =
          .ok { m with v := upd m.v n (m.mem (m.i + n)) } := by
        simp [loadStep, readMem, hc, writeV, h1]
      rw [hstep]
      simp only [okBind]
      exact ih (n + 1) _ (by omega)
        (show 4095 < m.i + (n + 1) + j by omega)
    · simp [loadStep, readMem, hc]

/-- Machine whose address register points two bytes short of the end of
memory: `store-BCD` then touches addresses 4094, 4095 and 4096. -/
def machineI4094 : Machine := { initMachine with i := 4094 }

/-- C7 counterexample: `store-BCD` with `I = 4094` must, per the claim,
end in an out-of-bounds fault; the source instead performs unchecked
indexing — the write to `mem[4096]` is an index-out-of-bounds panic,
and no fault value is reported to any caller. -/
theorem spec_c7_counterexample :
    execute 0 (.LoadIBCD 123) machineI4094 =
      .error (.panic "index out of bounds") ∧
    isFault (execute 0 (.LoadIBCD 123) machineI4094) = false :=
  ⟨rfl, rfl⟩

/-- C7 amended: the indirect memory accesses of `store-BCD`,
`store-registers` and `load-registers` are unchecked: whenever `I` plus
the largest offset the instruction uses (2 for `store-BCD`, `upto` for the
register block moves) exceeds 4095, the instruction panics with an
index-out-of-bounds rather than producing an out-of-bounds fault value.
Each instruction's overrun condition gates only that instruction's
conclusion. -/
theorem spec_c7_unchecked_memory (rnd x upto : Nat) (m : Machine)
    (hup : upto ≤ 15) :
    (4095 < m.i + 2 →
      execute rnd (.LoadIBCD x) m = .error (.panic "index out of bounds")) ∧
    (4095 < m.i + upto →
      execute rnd (.StoreRegisters upto) m =
        .error (.panic "index out of bounds")) ∧
    (4095 < m.i + upto →
      execute rnd (.LoadRegisters upto) m =
        .error (.panic "index out of bounds")) := by
  refine ⟨fun hB => ?_, fun hM => ?_, fun hM => ?_⟩
  · by_cases h0 : m.i < 4096
    · by_cases h1 : m.i + 1 < 4096
      · have h2 : ¬(m.i + 2 < 4096) := by omega
        simp [execute, writeMem, h0, h1, h2]
      · simp [execute, writeMem, h0, h1]
    · simp [execute, writeMem, h0]
  · exact storeLoop_panics upto 0 m (by omega)
      (show 4095 < m.i + 0 + upto by omega)
  · exact loadLoop_panics upto 0 m (by omega)
      (show 4095 < m.i + 0 + upto by omega)

/-- Machine whose address register sits at 4090: a block move of the
registers 0..=10 then overruns memory at offset 6 while `store-BCD`
(largest offset 2) stays in bounds. -/
def machineI4090 : Machine := { initMachine with i := 4090 }

/-- C7 witness: the amended theorem applied at `I = 4090` with
`upto = 10` (the register block moves panic at address 4096 even though
`I + 2` is in bounds) and at `I = 4094` (where `store-BCD` panics at
address 4096). -/
theorem spec_c7_witness :
    (10 : Nat) ≤ 15 ∧ 4095 < machineI4090.i + 10 ∧
    machineI4090.i + 2 ≤ 4095 ∧ 4095 < machineI4094.i + 2 ∧
    execute 0 (.StoreRegisters 10) machineI4090 =
      .error (.panic "index out of bounds") ∧
    execute 0 (.LoadRegisters 10) machineI4090 =
      .error (.panic "index out of bounds") ∧
    execute 0 (.LoadIBCD 7) machineI4094 =
      .error (.panic "index out of bounds") :=
  ⟨by decide, by decide, by decide, by decide,
   (spec_c7_unchecked_memory 0 7 10 machineI4090 (by decide)).2.1 (by decide),
   (spec_c7_unchecked_memory 0 7 10 machineI4090 (by decide)).2.2 (by decide),
   (spec_c7_unchecked_memory 0 7 2 machineI4094 (by decide)).1 (by decide)⟩

/-! ## C4 — loading a program: silent truncation, zero padding -/

/-- Recognizer for any error outcome of a load (the shape a load error
reported to the caller would take). -/
def isErr : Except RtErr Machine → Bool
  | .error _ => true
  | .ok _ => false

/-- C4 counterexample: an input of 3585 bytes exceeds the 3584-byte
capacity, yet the load does not report an error to the caller: the single
`file.read` into the 3584-byte buffer simply drops everything past the
buffer (its byte count is discarded), so the copy succeeds silently. -/
theorem spec_c4_counterexample :
    (List.replicate 3585 (7 : Nat)).length > 3584 ∧
    isErr (copy_into_mem initMachine (List.replicate 3585 (7 : Nat))) =
      false := by
  constructor
  · rw [List.length_replicate]
    omega
  · rfl

/-- C4 amended: loading copies at most 3584 bytes into memory starting at
offset 512 and always succeeds — input longer than 3584 bytes is silently
truncated to its first 3584 bytes (no error is reported); for shorter
input the remainder of the program area is left zeroed, and addresses
below 512 are untouched. -/
theorem spec_c4_load_truncates (m : Machine) (data : List Nat) :
    ∃ m', copy_into_mem m data = .ok m' ∧
      (∀ k, k < 3584 → k < data.length → m'.mem (512 + k) = data.getD k 0) ∧
      (∀ k, k < 3584 → data.length ≤ k → m'.mem (512 + k) = 0) ∧
      (∀ a, a < 512 → m'.mem a = m.mem a) := by
  refine ⟨_, rfl, fun k hk hlen => ?_, fun k hk hlen => ?_, fun a ha => ?_⟩
  · have hcond : 512 ≤ 512 + k ∧ 512 + k < 4096 := by omega
    have htk : k < (data.take 3584).length := by
      simp [List.length_take]
      omega
    simp only [copy_into_mem, if_pos hcond, Nat.add_sub_cancel_left]
    rw [List.getD_eq_getElem _ _ htk, List.getElem_take,
      List.getD_eq_getElem _ _ hlen]
  · have hcond : 512 ≤ 512 + k ∧ 512 + k < 4096 := by omega
    have htk : (data.take 3584).length ≤ k := by
      simp [List.length_take]
      omega
    simp only [copy_into_mem, if_pos hcond, Nat.add_sub_cancel_left]
    rw [List.getD_eq_default _ _ htk]
  · have hcond : ¬(512 ≤ a ∧ a < 4096) := by omega
    simp only [copy_into_mem, if_neg hcond]

/-- C4 witness: loading the two bytes `[9, 9]` places them at 512 and 513,
leaves the next program byte 0 and address 0 untouched. -/
theorem spec_c4_witness :
    ∃ m', copy_into_mem initMachine [9, 9] = .ok m' ∧
      m'.mem 512 = 9 ∧ m'.mem 513 = 9 ∧ m'.mem 514 = 0 ∧ m'.mem 0 = 0 := by
  obtain ⟨m', hok, h1, h2, h3⟩ := spec_c4_load_truncates initMachine [9, 9]
  refine ⟨m', hok, ?_, ?_, ?_, ?_⟩
  · simpa using h1 0 (by omega) (by simp)
  · simpa using h1 1 (by omega) (by simp)
  · simpa using h2 2 (by omega) (by simp)
  · have := h3 0 (by omega)
    simp [this, initMachine]
